import Mathlib

/-!
# Verification of the IQ-test web backend core

Shallow embedding of the Test Session / Response / Scoring pipeline of the
Express/Prisma backend:

* data model: `TestSession`, `Question`, `ResponseRow`, `TestResult`
  (Prisma schema and migration `20250616075555_init`);
* route handlers of the test router (`POST /test/start`,
  `GET /test/:sessionId/question`, `POST /test/:sessionId/response`) and of the
  results router (`GET /results/session/:sessionId`), translated branch by
  branch from the source;
* the scoring helpers `generateTestResult`, `calculatePercentile` and `erf`.

Identifiers (UUIDs in the source) are modelled as natural numbers; timestamps
are milliseconds since epoch as natural numbers.  The Redis cache layer is not
modelled: it is a read-through mirror of the relational store and no claim
refers to it.  JavaScript numbers in the scoring pipeline are modelled exactly
over `ℚ` (and over `ℝ` for the `erf`/percentile computation, which uses
`Math.exp`/`Math.sqrt`).
-/

namespace IQTest

/-- Session status enum (`TestSessionStatus` in the migration:
`STARTED`, `IN_PROGRESS`, `COMPLETED`, `ABANDONED`, `INVALID`). -/
inductive SessionStatus where
  | started
  | inProgress
  | completed
  | abandoned
  | invalid
deriving DecidableEq, Repr

/-- Question bank row (the fields the test/results routes read). -/
structure Question where
  id : Nat
  category : String
  difficulty : ℚ
  correctAnswer : String
  isActive : Bool
deriving DecidableEq, Repr

/-- Test session row (the fields selected by the test routes). -/
structure TestSession where
  userId : Option Nat
  questionIds : List Nat
  currentIndex : Nat
  status : SessionStatus
  startedAt : Nat
  endedAt : Option Nat
  timeLimit : Option Nat
deriving DecidableEq, Repr

/-- Response row; unique on (sessionId, questionId) per the migration index
`responses_sessionId_questionId_key`. -/
structure ResponseRow where
  sessionId : Nat
  questionId : Nat
  answer : String
  isCorrect : Bool
  responseTime : Nat
deriving DecidableEq, Repr

/-- Test result row as created by `generateTestResult`; unique on sessionId per
the migration index `test_results_sessionId_key`.  The percentile is the
real-valued output of `calculatePercentile`. -/
structure TestResult where
  userId : Option Nat
  totalScore : Nat
  iqScore : ℤ
  percentile : ℝ
  abilityLevel : ℚ
  standardError : ℚ
  totalTime : Nat
  averageTime : ℚ
  isComplete : Bool
  validityFlags : List String

/-- Error taxonomy of `middleware/errorHandler`:
`ValidationError` 400, `NotFoundError` 404, `UnauthorizedError` 401,
`ForbiddenError` 403, `ConflictError` 409. -/
inductive ApiError where
  | validation (msg : String)
  | notFound (msg : String)
  | unauthorized (msg : String)
  | forbidden (msg : String)
  | conflict (msg : String)
deriving DecidableEq, Repr

/-- HTTP status code assigned by the `AppError` subclasses. -/
def ApiError.statusCode : ApiError → Nat
  | .validation _ => 400
  | .notFound _ => 404
  | .unauthorized _ => 401
  | .forbidden _ => 403
  | .conflict _ => 409

instance {ε α : Type} [DecidableEq ε] [DecidableEq α] : DecidableEq (Except ε α) := fun a b =>
  match a, b with
  | .error e, .error e' => decidable_of_iff (e = e') (by simp)
  | .ok x, .ok y => decidable_of_iff (x = y) (by simp)
  | .error _, .ok _ => isFalse (by simp)
  | .ok _, .error _ => isFalse (by simp)

/-- The relational store: question bank, sessions, responses and results.
Sessions and results are association lists keyed by id (primary keys). -/
structure DB where
  questions : List Question
  sessions : List (Nat × TestSession)
  responses : List ResponseRow
  results : List (Nat × TestResult)

/-- `prisma.testSession.findUnique({where: {id}})`. -/
def findSession (db : DB) (sid : Nat) : Option TestSession :=
  (db.sessions.find? (fun p => p.1 == sid)).map (·.2)

/-- `prisma.question.findUnique({where: {id}})`. -/
def findQuestion (db : DB) (qid : Nat) : Option Question :=
  db.questions.find? (fun q => q.id == qid)

/-- The session's `result` relation (`include: {result: true}`). -/
def findResult (db : DB) (sid : Nat) : Option TestResult :=
  (db.results.find? (fun p => p.1 == sid)).map (·.2)

/-- The session's `responses` relation. -/
def responsesFor (db : DB) (sid : Nat) : List ResponseRow :=
  db.responses.filter (fun r => r.sessionId == sid)

/-- `prisma.testSession.update({where: {id}, data})`. -/
def updateSession (db : DB) (sid : Nat) (f : TestSession → TestSession) : DB :=
  { db with sessions := db.sessions.map (fun p => if p.1 == sid then (p.1, f p.2) else p) }

/-- The ownership check used by all three routers:
`if (session.userId && req.user?.id !== session.userId)`.  An anonymous
session (`userId` null) is accessible to everyone; an owned session only to a
caller authenticated as its owner. -/
def accessDenied (sessionUserId caller : Option Nat) : Bool :=
  match sessionUserId with
  | some uid => caller != some uid
  | none => false

/-- `session.status !== 'STARTED' && session.status !== 'IN_PROGRESS'`. -/
def isTerminalStatus (st : SessionStatus) : Bool :=
  st != .started && st != .inProgress

/-- JavaScript truthiness of the stored `timeLimit`
(`if (session.timeLimit)`): `null`/`undefined`/`0` are falsy. -/
def timeLimitTruthy : Option Nat → Bool
  | none => false
  | some l => l != 0

/-- `Math.floor((now - startedAt) / 1000)` on millisecond timestamps. -/
def jsElapsedSeconds (now startedAt : Nat) : ℤ :=
  ((now : ℤ) - (startedAt : ℤ)).fdiv 1000

/-- `Math.round` on an exact rational: round half toward positive infinity. -/
def jsRound (q : ℚ) : ℤ := ⌊q + 1 / 2⌋

/-! ## POST /test/start -/

/-- The three test types accepted by the `startTestValidation` rule
(`isIn(['full_iq', 'quick_assessment', 'practice'])`).  An unrecognised
string fails validation before the handler runs, so the accepted values are
modelled as an enumeration. -/
inductive TestType where
  | full_iq
  | quick_assessment
  | practice
deriving DecidableEq, Repr

/-- Category presets of `generateQuestionSequence`. -/
def testTypeCategories : TestType → List String
  | .full_iq => ["logical_sequences", "spatial", "verbal", "working_memory", "processing_speed"]
  | .quick_assessment => ["logical_sequences", "spatial", "verbal"]
  | .practice => ["logical_sequences"]

/-- Question-count presets of `generateQuestionSequence`. -/
def testTypeTotal : TestType → Nat
  | .full_iq => 60
  | .quick_assessment => 20
  | .practice => 10

/-- Insertion step for the difficulty ordering of the question query. -/
def insertByDifficulty (q : Question) : List Question → List Question
  | [] => [q]
  | x :: xs => if q.difficulty ≤ x.difficulty then q :: x :: xs else x :: insertByDifficulty q xs

/-- The `orderBy: {difficulty: 'asc'}` clause of the question query, modelled
as an insertion sort (the ordering is produced by the database engine). -/
def sortByDifficulty : List Question → List Question
  | [] => []
  | x :: xs => insertByDifficulty x (sortByDifficulty xs)

/-- `generateQuestionSequence`: active questions of the configured categories,
ordered by ascending difficulty, `take: total * 2` in the query, then
`slice(0, total)` and map to ids. -/
def generateQuestionSequence (db : DB) (t : TestType) : List Nat :=
  let qs := db.questions.filter (fun q => q.isActive && (testTypeCategories t).contains q.category)
  let sorted := sortByDifficulty qs
  ((sorted.take (testTypeTotal t * 2)).take (testTypeTotal t)).map (·.id)

/-- Response payload of `POST /test/start` (the parts the claims refer to). -/
structure StartOk where
  sessionId : Nat
  firstQuestion : Option Nat
  progressTotal : Nat
deriving DecidableEq, Repr

/-- `POST /test/start`.  `newSid` stands for the generated `uuidv4()`; the
primary-key constraint on an (astronomically unlikely) duplicate id is
modelled as the Prisma unique-violation → `ConflictError` mapping. -/
def startSession (db : DB) (caller : Option Nat) (newSid : Nat)
    (testType : Option TestType) (timeLimit : Option Nat) (now : Nat) :
    Except ApiError StartOk × DB :=
  if timeLimit.any (fun l => l < 300 || 7200 < l) then
    (.error (.validation "Time limit must be between 300 and 7200 seconds"), db)
  else if (findSession db newSid).isSome then
    (.error (.conflict "id already exists"), db)
  else
    let qids := generateQuestionSequence db (testType.getD .full_iq)
    let session : TestSession :=
      { userId := caller, questionIds := qids, currentIndex := 0, status := .started,
        startedAt := now, endedAt := none, timeLimit := timeLimit }
    let db' : DB := { db with sessions := db.sessions ++ [(newSid, session)] }
    (.ok { sessionId := newSid,
           firstQuestion := (qids.get? 0).bind (fun qid => (findQuestion db qid).map (·.id)),
           progressTotal := qids.length }, db')

/-! ## GET /test/:sessionId/question -/

/-- Response payload of `GET /test/:sessionId/question`: the current question
(answer field stripped — modelled by returning only its id), progress, and
`timeRemaining` (`null` when no limit was set). -/
structure QuestionView where
  questionId : Nat
  progressCurrent : Nat
  progressTotal : Nat
  timeRemaining : Option ℤ
deriving DecidableEq, Repr

/-- The tail of the question handler: `getQuestionForSession` (null when the
index is past the list or the question row is missing → `NotFoundError`),
then the JSON payload.  Both `Date.now()` calls of the handler happen within
the same request and are modelled by the single instant `now`. -/
def questionLookup (db : DB) (session : TestSession) (now : Nat) :
    Except ApiError QuestionView :=
  match session.questionIds.get? session.currentIndex with
  | none => .error (.notFound "No more questions available")
  | some qid =>
    match findQuestion db qid with
    | none => .error (.notFound "No more questions available")
    | some q =>
      .ok { questionId := q.id,
            progressCurrent := session.currentIndex + 1,
            progressTotal := session.questionIds.length,
            timeRemaining :=
              if timeLimitTruthy session.timeLimit then
                some (max 0 ((session.timeLimit.getD 0 : ℤ) - jsElapsedSeconds now session.startedAt))
              else none }

/-- `GET /test/:sessionId/question`. -/
def getCurrentQuestion (db : DB) (caller : Option Nat) (sid : Nat) (now : Nat) :
    Except ApiError QuestionView × DB :=
  match findSession db sid with
  | none => (.error (.notFound "Test session not found"), db)
  | some session =>
    if accessDenied session.userId caller then
      (.error (.validation "Access denied to this test session"), db)
    else if isTerminalStatus session.status then
      (.error (.validation "Test session is not active"), db)
    else if timeLimitTruthy session.timeLimit
        && jsElapsedSeconds now session.startedAt > (session.timeLimit.getD 0 : ℤ) then
      (.error (.validation "Test session has expired"),
       updateSession db sid (fun s => { s with status := .completed, endedAt := some now }))
    else
      (questionLookup db session now, db)

/-! ## POST /test/:sessionId/response -/

/-- Response payload of `POST /test/:sessionId/response` (the parts the claims
refer to; the `progress` object is not referenced by any claim). -/
structure SubmitOk where
  isCorrect : Bool
  completed : Bool
  nextQuestion : Option Nat
deriving DecidableEq, Repr

/-- `POST /test/:sessionId/response`.  The `submitResponseValidation` rules
that survive the typed embedding are `answer` non-empty (`notEmpty()`); the
id UUID checks and `responseTime` non-negativity hold by type.  The Prisma
unique constraint on (sessionId, questionId) is checked at `response.create`
and surfaces as `ConflictError` via `handlePrismaError` (`P2002`). -/
def submitResponse (db : DB) (caller : Option Nat) (sid qid : Nat)
    (answer : String) (responseTime : Nat) (now : Nat) :
    Except ApiError SubmitOk × DB :=
  if answer = "" then (.error (.validation "Answer is required"), db)
  else
    match findSession db sid with
    | none => (.error (.notFound "Test session not found"), db)
    | some session =>
      if accessDenied session.userId caller then
        (.error (.validation "Access denied to this test session"), db)
      else if isTerminalStatus session.status then
        (.error (.validation "Test session is not active"), db)
      else
        -- `const expectedQuestionId = session.questionIds[session.currentIndex]`
        -- (an out-of-range index yields `undefined`, which never equals the
        -- submitted UUID, so it lands in the mismatch branch)
        match session.questionIds.get? session.currentIndex with
        | none => (.error (.validation "Invalid question for current session state"), db)
        | some expectedQuestionId =>
          if qid ≠ expectedQuestionId then
            (.error (.validation "Invalid question for current session state"), db)
          else
            match findQuestion db qid with
            | none => (.error (.notFound "Question not found"), db)
            | some question =>
              let isCorrect := answer == question.correctAnswer
              if db.responses.any (fun r => r.sessionId == sid && r.questionId == qid) then
                (.error (.conflict "sessionId already exists"), db)
              else
                let row : ResponseRow :=
                  { sessionId := sid, questionId := qid, answer := answer,
                    isCorrect := isCorrect, responseTime := responseTime }
                let nextIndex := session.currentIndex + 1
                let isLast := session.questionIds.length ≤ nextIndex
                let db1 : DB := { db with responses := db.responses ++ [row] }
                let db2 := updateSession db1 sid (fun s =>
                  { s with currentIndex := nextIndex,
                           status := if isLast then .completed else .inProgress,
                           endedAt := if isLast then some now else s.endedAt })
                if isLast then
                  (.ok { isCorrect := isCorrect, completed := true, nextQuestion := none }, db2)
                else
                  (.ok { isCorrect := isCorrect, completed := false,
                         nextQuestion := (session.questionIds.get? nextIndex).bind
                           (fun nq => (findQuestion db nq).map (·.id)) }, db2)

/-! ## Scoring: `erf`, `calculatePercentile`, `generateTestResult` -/

/-- The Abramowitz–Stegun polynomial of the `erf` approximation, exactly as
nested in the source: `((((a5*t + a4)*t + a3)*t + a2)*t + a1)`. -/
def erfPoly (t : ℝ) : ℝ :=
  (((1.061405429 * t + -1.453152027) * t + 1.421413741) * t + -0.284496736) * t + 0.254829592

/-- The branch of `erf` taken for a non-negative argument (`x = Math.abs(x)`
has already been applied): `t = 1/(1 + p*x)`;
`y = 1 - poly(t) * t * Math.exp(-x*x)`. -/
noncomputable def erfPos (x : ℝ) : ℝ :=
  1 - erfPoly (1 / (1 + 0.3275911 * x)) * (1 / (1 + 0.3275911 * x)) * Real.exp (-(x * x))

/-- `erf(x)`: `sign = x >= 0 ? 1 : -1; x = Math.abs(x); return sign * y`. -/
noncomputable def erf (x : ℝ) : ℝ :=
  if 0 ≤ x then erfPos x else -(erfPos (-x))

/-- `calculatePercentile(iqScore)`:
`z = (iqScore - 100) / 15`;
`percentile = 0.5 * (1 + erf(z / Math.sqrt(2)))`;
`Math.round(percentile * 100 * 100) / 100`. -/
noncomputable def calculatePercentile (iqScore : ℝ) : ℝ :=
  let z := (iqScore - 100) / 15
  let percentile := 0.5 * (1 + erf (z / Real.sqrt 2))
  ((⌊percentile * 100 * 100 + 1 / 2⌋ : ℤ) : ℝ) / 100

/-- `rawScore`: count of responses with `isCorrect`. -/
def countCorrect (rs : List ResponseRow) : Nat :=
  (rs.filter (·.isCorrect)).length

/-- `totalTime`: sum of `responseTime` in milliseconds. -/
def totalResponseTime (rs : List ResponseRow) : Nat :=
  (rs.map (·.responseTime)).sum

/-- The record built by `generateTestResult` from the session's responses:
`totalQuestions = responses.length`, `correctAnswers`/`totalScore`,
`rawPercentage = correctAnswers / totalQuestions`,
`iqScore = Math.round(100 + (rawPercentage - 0.5) * 30)` clamped with
`Math.max(40, Math.min(200, iqScore))` when stored, percentile and
`abilityLevel` computed from the unclamped score, `standardError: 5.0`,
`totalTime` stored in seconds, `validityFlags: []`. -/
noncomputable def computeResultRecord (userId : Option Nat) (responses : List ResponseRow) :
    TestResult :=
  let totalQuestions := responses.length
  let correctAnswers := countCorrect responses
  let rawPercentage : ℚ := (correctAnswers : ℚ) / (totalQuestions : ℚ)
  let iqScore : ℤ := jsRound (100 + (rawPercentage - 1 / 2) * 30)
  let totalTime := totalResponseTime responses
  { userId := userId
    totalScore := correctAnswers
    iqScore := max 40 (min 200 iqScore)
    percentile := calculatePercentile (iqScore : ℝ)
    abilityLevel := ((iqScore : ℚ) - 100) / 15
    standardError := 5
    totalTime := totalTime / 1000
    averageTime := (totalTime : ℚ) / (totalQuestions : ℚ)
    isComplete := true
    validityFlags := [] }

/-! ## GET /results/session/:sessionId -/

/-- Response payload of `GET /results/session/:sessionId` (the parts the
claims refer to; the non-persisted breakdown/timing/difficulty analyses are
not referenced by any claim).  `totalQuestions` in the payload is
`session.responses.length`, as in the source. -/
structure ResultPayload where
  sessionStatus : SessionStatus
  result : Option TestResult
  totalQuestions : Nat
  validityFlags : List String

/-- `GET /results/session/:sessionId`: fetch session with responses and
result; 404 when absent; ownership check; if no result exists and the session
is `COMPLETED`, `generateTestResult` computes and persists one; the payload
reports the (possibly just created) result. -/
noncomputable def getSessionResult (db : DB) (caller : Option Nat) (sid : Nat) :
    Except ApiError ResultPayload × DB :=
  match findSession db sid with
  | none => (.error (.notFound "Test session not found"), db)
  | some session =>
    if accessDenied session.userId caller then
      (.error (.validation "Access denied to this test result"), db)
    else if (findResult db sid).isNone && session.status == .completed then
      let r := computeResultRecord session.userId (responsesFor db sid)
      let db' : DB := { db with results := db.results ++ [(sid, r)] }
      (.ok { sessionStatus := session.status, result := some r,
             totalQuestions := (responsesFor db sid).length,
             validityFlags := r.validityFlags }, db')
    else
      (.ok { sessionStatus := session.status, result := findResult db sid,
             totalQuestions := (responsesFor db sid).length,
             validityFlags := ((findResult db sid).map (·.validityFlags)).getD [] }, db)

/-! ## The public transition system

Every (state-relevant) public operation of the core, as a step relation on the
store.  Each constructor's parameters are the request parameters; the
post-state is the second component returned by the handler (handlers that fail
return the store unchanged, except for the lazy-timeout completion inside
`GET /test/:sessionId/question`). -/

inductive Step : DB → DB → Prop where
  | start (db : DB) (caller : Option Nat) (newSid : Nat) (testType : Option TestType)
      (timeLimit : Option Nat) (now : Nat) :
      Step db (startSession db caller newSid testType timeLimit now).2
  | question (db : DB) (caller : Option Nat) (sid : Nat) (now : Nat) :
      Step db (getCurrentQuestion db caller sid now).2
  | submit (db : DB) (caller : Option Nat) (sid qid : Nat) (answer : String)
      (responseTime now : Nat) :
      Step db (submitResponse db caller sid qid answer responseTime now).2
  | result (db : DB) (caller : Option Nat) (sid : Nat) :
      Step db (getSessionResult db caller sid).2

/-- An initial store: a question bank with distinct ids (admin CRUD is outside
the core) and no sessions, responses or results. -/
def InitDB (db : DB) : Prop :=
  (db.questions.map Question.id).Nodup ∧ db.sessions = [] ∧ db.responses = [] ∧ db.results = []

/-- States reachable from an initial store through the public operations. -/
def Reachable (db0 db : DB) : Prop :=
  InitDB db0 ∧ Relation.ReflTransGen Step db0 db

/-- Per-session part of the state invariant. -/
def SessionInv (db : DB) (sid : Nat) (s : TestSession) : Prop :=
  s.currentIndex ≤ s.questionIds.length ∧
  s.questionIds.Nodup ∧
  (∀ r ∈ db.responses, r.sessionId = sid → r.questionId ∈ s.questionIds.take s.currentIndex) ∧
  ((findResult db sid).isSome → s.status = .completed) ∧
  (∀ l, s.timeLimit = some l → 300 ≤ l ∧ l ≤ 7200)

/-- The state invariant maintained by the public operations. -/
def Inv (db : DB) : Prop :=
  (db.questions.map Question.id).Nodup ∧
  (db.sessions.map Prod.fst).Nodup ∧
  (db.results.map Prod.fst).Nodup ∧
  (∀ p ∈ db.sessions, SessionInv db p.1 p.2) ∧
  (∀ r ∈ db.responses, ∃ p ∈ db.sessions, p.1 = r.sessionId) ∧
  (∀ q ∈ db.results, ∃ p ∈ db.sessions, p.1 = q.1)

instance decidableTimeLimitRange (o : Option Nat) :
    Decidable (∀ l, o = some l → 300 ≤ l ∧ l ≤ 7200) :=
  match o with
  | none => isTrue (fun l h => by cases h)
  | some l =>
    if h : 300 ≤ l ∧ l ≤ 7200 then
      isTrue (fun l' hl' => by injection hl' with he; exact he ▸ h)
    else isFalse (fun hall => h (hall l rfl))

instance (db : DB) (sid : Nat) (s : TestSession) : Decidable (SessionInv db sid s) := by
  unfold SessionInv
  infer_instance

instance (db : DB) : Decidable (Inv db) := by
  unfold Inv
  infer_instance

/-! ## Sample data used by witnesses and counterexamples -/

/-- Sample bank question 1. -/
def sampleQ1 : Question :=
  { id := 1, category := "logical_sequences", difficulty := 0, correctAnswer := "a", isActive := true }

/-- Sample bank question 2. -/
def sampleQ2 : Question :=
  { id := 2, category := "logical_sequences", difficulty := 1, correctAnswer := "b", isActive := true }

/-- An initial store holding the two sample questions. -/
def sampleDB0 : DB := { questions := [sampleQ1, sampleQ2], sessions := [], responses := [], results := [] }

/-- Store after starting an untimed anonymous practice session (id 1). -/
def sampleDB1 : DB := (startSession sampleDB0 none 1 (some .practice) none 0).2

/-- Store after starting a practice session (id 1) with a 300-second limit. -/
def sampleDB2 : DB := (startSession sampleDB0 none 1 (some .practice) (some 300) 0).2

/-- Store after starting a practice session (id 5) owned by user 1. -/
def sampleDBOwned : DB := (startSession sampleDB0 (some 1) 5 (some .practice) none 0).2

/-- A sample single correct response. -/
def sampleResp1 : ResponseRow :=
  { sessionId := 1, questionId := 1, answer := "a", isCorrect := true, responseTime := 500 }

/-- A sample single incorrect response. -/
def sampleResp2 : ResponseRow :=
  { sessionId := 1, questionId := 2, answer := "x", isCorrect := false, responseTime := 700 }

/-! ## Arithmetic facts about the scoring record -/

/-- `Math.round` is monotone. -/
theorem jsRound_le_jsRound {q q' : ℚ} (h : q ≤ q') : jsRound q ≤ jsRound q' :=
  Int.floor_le_floor (by linarith)

/-- `rawScore` never exceeds `totalQuestions`. -/
theorem countCorrect_le_length (rs : List ResponseRow) : countCorrect rs ≤ rs.length :=
  List.length_filter_le _ _

/-- Claim C2: the persisted `iqScore` is
`Math.round(100 + (rawScore/totalQuestions - 0.5) * 30)` clamped to [40, 200];
it lies in [40, 200] and is monotone in the raw score for a fixed number of
responses. -/
theorem c2_iq_score_formula (userId : Option Nat) (rs rs' : List ResponseRow)
    (hn : 1 ≤ rs.length) (hlen : rs'.length = rs.length)
    (hmono : countCorrect rs ≤ countCorrect rs') :
    (computeResultRecord userId rs).iqScore
        = max 40 (min 200 (jsRound (100 + ((countCorrect rs : ℚ) / (rs.length : ℚ) - 1 / 2) * 30)))
      ∧ 40 ≤ (computeResultRecord userId rs).iqScore
      ∧ (computeResultRecord userId rs).iqScore ≤ 200
      ∧ (computeResultRecord userId rs).iqScore ≤ (computeResultRecord userId rs').iqScore := by
  have hn' : (0 : ℚ) < (rs.length : ℚ) := by exact_mod_cast hn
  refine ⟨rfl, le_max_left _ _, max_le (by norm_num) (min_le_left _ _), ?_⟩
  show max 40 (min 200 (jsRound _)) ≤ max 40 (min 200 (jsRound _))
  have hq : ((countCorrect rs : ℚ) / (rs.length : ℚ))
      ≤ ((countCorrect rs' : ℚ) / (rs'.length : ℚ)) := by
    rw [hlen]
    exact (div_le_div_iff_of_pos_right hn').mpr (by exact_mod_cast hmono)
  have hr : jsRound (100 + ((countCorrect rs : ℚ) / (rs.length : ℚ) - 1 / 2) * 30)
      ≤ jsRound (100 + ((countCorrect rs' : ℚ) / (rs'.length : ℚ) - 1 / 2) * 30) :=
    jsRound_le_jsRound (by linarith)
  exact max_le_max le_rfl (min_le_min le_rfl hr)

/-- Witness for C2: ten responses, all correct, give the clamped score 115
(scenario A of the specification). -/
theorem c2_iq_score_formula_witness :
    1 ≤ (List.replicate 10 sampleResp1).length
    ∧ (computeResultRecord none (List.replicate 10 sampleResp1)).iqScore
        = max 40 (min 200 (jsRound (100 + ((countCorrect (List.replicate 10 sampleResp1) : ℚ)
            / ((List.replicate 10 sampleResp1).length : ℚ) - 1 / 2) * 30)))
      ∧ 40 ≤ (computeResultRecord none (List.replicate 10 sampleResp1)).iqScore
      ∧ (computeResultRecord none (List.replicate 10 sampleResp1)).iqScore ≤ 200
      ∧ (computeResultRecord none (List.replicate 10 sampleResp1)).iqScore
          ≤ (computeResultRecord none (List.replicate 10 sampleResp1)).iqScore :=
  ⟨by decide,
   c2_iq_score_formula none (List.replicate 10 sampleResp1) (List.replicate 10 sampleResp1)
     (by decide) (by decide) (by decide)⟩

/-- Claim C10: with at least one response the pre-clamp score
`Math.round(100 + (rawPercentage - 0.5) * 30)` already lies in [85, 115], the
[40, 200] clamp never changes the stored value, and the persisted percentile
(computed by the source from the unclamped score) equals the percentile of the
persisted `iqScore`. -/
theorem c10_clamp_never_fires (userId : Option Nat) (rs : List ResponseRow)
    (hn : 1 ≤ rs.length) :
    85 ≤ jsRound (100 + ((countCorrect rs : ℚ) / (rs.length : ℚ) - 1 / 2) * 30)
    ∧ jsRound (100 + ((countCorrect rs : ℚ) / (rs.length : ℚ) - 1 / 2) * 30) ≤ 115
    ∧ (computeResultRecord userId rs).iqScore
        = jsRound (100 + ((countCorrect rs : ℚ) / (rs.length : ℚ) - 1 / 2) * 30)
    ∧ (computeResultRecord userId rs).percentile
        = calculatePercentile (((computeResultRecord userId rs).iqScore : ℤ) : ℝ) := by
  have hn' : (0 : ℚ) < (rs.length : ℚ) := by exact_mod_cast hn
  have hk : ((countCorrect rs : ℚ) / (rs.length : ℚ)) ≤ 1 := by
    rw [div_le_one hn']
    exact_mod_cast countCorrect_le_length rs
  have hk0 : (0 : ℚ) ≤ ((countCorrect rs : ℚ) / (rs.length : ℚ)) :=
    div_nonneg (by positivity) (by positivity)
  have hlo : (85 : ℤ) ≤ jsRound (100 + ((countCorrect rs : ℚ) / (rs.length : ℚ) - 1 / 2) * 30) := by
    rw [jsRound, Int.le_floor]
    push_cast
    linarith
  have hhi : jsRound (100 + ((countCorrect rs : ℚ) / (rs.length : ℚ) - 1 / 2) * 30) ≤ 115 := by
    have : jsRound (100 + ((countCorrect rs : ℚ) / (rs.length : ℚ) - 1 / 2) * 30) < 116 := by
      rw [jsRound, Int.floor_lt]
      push_cast
      linarith
    omega
  have hclamp : (computeResultRecord userId rs).iqScore
      = jsRound (100 + ((countCorrect rs : ℚ) / (rs.length : ℚ) - 1 / 2) * 30) := by
    show max 40 (min 200 _) = _
    rw [min_eq_right (by omega), max_eq_right (by omega)]
  refine ⟨hlo, hhi, hclamp, ?_⟩
  show calculatePercentile _ = calculatePercentile _
  rw [hclamp]

/-- Witness for C10 at a concrete one-response list. -/
theorem c10_clamp_never_fires_witness :
    1 ≤ [sampleResp1].length
    ∧ 85 ≤ jsRound (100 + ((countCorrect [sampleResp1] : ℚ) / (([sampleResp1] : List ResponseRow).length : ℚ) - 1 / 2) * 30)
    ∧ jsRound (100 + ((countCorrect [sampleResp1] : ℚ) / (([sampleResp1] : List ResponseRow).length : ℚ) - 1 / 2) * 30) ≤ 115
    ∧ (computeResultRecord none [sampleResp1]).iqScore
        = jsRound (100 + ((countCorrect [sampleResp1] : ℚ) / (([sampleResp1] : List ResponseRow).length : ℚ) - 1 / 2) * 30)
    ∧ (computeResultRecord none [sampleResp1]).percentile
        = calculatePercentile (((computeResultRecord none [sampleResp1]).iqScore : ℤ) : ℝ) := by
  refine ⟨by decide, ?_⟩
  exact c10_clamp_never_fires none [sampleResp1] (by decide)

/-! ## Ownership check (claim C7) -/

/-- The session created in `sampleDBOwned`. -/
def sessOwned : TestSession :=
  { userId := some 1, questionIds := [1, 2], currentIndex := 0, status := .started,
    startedAt := 0, endedAt := none, timeLimit := none }

/-- Counterexample to claim C7: a caller authenticated as user 2 reading the
question of a session owned by user 1 receives `ValidationError`
("Access denied to this test session"), which the error handler maps to HTTP
400 — not an authorization error mapped to 401. -/
theorem c7_counterexample :
    (getCurrentQuestion sampleDBOwned (some 2) 5 1000).1
        = .error (.validation "Access denied to this test session")
    ∧ (ApiError.validation "Access denied to this test session").statusCode = 400
    ∧ (ApiError.validation "Access denied to this test session").statusCode ≠ 401 := by
  refine ⟨by decide, by decide, by decide⟩

/-- Claim C7 (amended): reading the current question of an existing session
owned by a different user fails with `ValidationError` (HTTP 400), leaving the
store unchanged. -/
theorem c7_foreign_session_validation_400 (db : DB) (sid now u v : Nat)
    (s : TestSession) (hs : findSession db sid = some s)
    (hu : s.userId = some u) (hneq : v ≠ u) :
    (getCurrentQuestion db (some v) sid now).1
        = .error (.validation "Access denied to this test session")
    ∧ (getCurrentQuestion db (some v) sid now).2 = db
    ∧ (ApiError.validation "Access denied to this test session").statusCode = 400 := by
  have hacc : accessDenied s.userId (some v) = true := by
    simp [accessDenied, hu, hneq]
  simp [getCurrentQuestion, hs, hacc, ApiError.statusCode]

/-- Witness for the amended C7 at a concrete store. -/
theorem c7_foreign_session_validation_400_witness :
    findSession sampleDBOwned 5 = some sessOwned
    ∧ sessOwned.userId = some 1
    ∧ (2 : Nat) ≠ 1
    ∧ ((getCurrentQuestion sampleDBOwned (some 2) 5 1000).1
          = .error (.validation "Access denied to this test session")
       ∧ (getCurrentQuestion sampleDBOwned (some 2) 5 1000).2 = sampleDBOwned
       ∧ (ApiError.validation "Access denied to this test session").statusCode = 400) :=
  ⟨by decide, by decide, by decide,
   c7_foreign_session_validation_400 sampleDBOwned 5 1000 1 2 sessOwned
     (by decide) (by decide) (by decide)⟩

/-! ## Time-limit behaviour of the question route (claim C8) -/

/-- The session created in `sampleDB2`. -/
def sessTimed : TestSession :=
  { userId := none, questionIds := [1, 2], currentIndex := 0, status := .started,
    startedAt := 0, endedAt := none, timeLimit := some 300 }

/-- Claim C8: on an accessible active session, if the elapsed seconds exceed
the stored time limit the question route fails with `ValidationError` and
flips the session to Completed with an end timestamp; within the limit the
returned `timeRemaining` is `max(0, timeLimit - elapsedSeconds)`; and with no
limit stored `timeRemaining` is `null`.  (`timeLimit = some 0` is excluded:
creation validates the limit into [300, 7200], and JavaScript treats a stored
0 as falsy.) -/
theorem c8_time_limit_behaviour (db : DB) (caller : Option Nat) (sid now : Nat)
    (s : TestSession) (hs : findSession db sid = some s)
    (hacc : accessDenied s.userId caller = false)
    (hact : isTerminalStatus s.status = false)
    (hpos : s.timeLimit ≠ some 0) :
    (∀ l : Nat, s.timeLimit = some l → (l : ℤ) < jsElapsedSeconds now s.startedAt →
        (getCurrentQuestion db caller sid now).1 = .error (.validation "Test session has expired")
        ∧ (getCurrentQuestion db caller sid now).2
            = updateSession db sid (fun t => { t with status := .completed, endedAt := some now }))
    ∧ (∀ l : Nat, s.timeLimit = some l → jsElapsedSeconds now s.startedAt ≤ (l : ℤ) →
        ∀ v : QuestionView, (getCurrentQuestion db caller sid now).1 = .ok v →
          v.timeRemaining = some (max 0 ((l : ℤ) - jsElapsedSeconds now s.startedAt)))
    ∧ (s.timeLimit = none →
        ∀ v : QuestionView, (getCurrentQuestion db caller sid now).1 = .ok v →
          v.timeRemaining = none) := by
  refine ⟨?_, ?_, ?_⟩
  · intro l hl hgt
    have hl0 : l ≠ 0 := by
      intro h
      exact hpos (h ▸ hl)
    simp [getCurrentQuestion, hs, hacc, hact, hl, timeLimitTruthy, hl0, hgt]
  · intro l hl hle v hv
    have hl0 : l ≠ 0 := by
      intro h
      exact hpos (h ▸ hl)
    have hdec : decide (jsElapsedSeconds now s.startedAt > (s.timeLimit.getD 0 : ℤ)) = false := by
      apply decide_eq_false
      rw [hl]
      simp only [Option.getD_some]
      omega
    simp only [getCurrentQuestion, hs, hacc, hact, Bool.false_eq_true, if_false, hdec,
      Bool.and_false, questionLookup] at hv
    rcases h1 : s.questionIds.get? s.currentIndex with _ | qid
    · simp only [h1] at hv
      exact absurd hv (by simp)
    · simp only [h1] at hv
      rcases h2 : findQuestion db qid with _ | q
      · simp only [h2] at hv
        exact absurd hv (by simp)
      · simp only [h2, Except.ok.injEq] at hv
        subst hv
        simp [hl, timeLimitTruthy, hl0]
  · intro hnone v hv
    simp only [getCurrentQuestion, hs, hacc, hact, Bool.false_eq_true, if_false,
      hnone, timeLimitTruthy, Bool.false_and, questionLookup] at hv
    rcases h1 : s.questionIds.get? s.currentIndex with _ | qid
    · simp only [h1] at hv
      exact absurd hv (by simp)
    · simp only [h1] at hv
      rcases h2 : findQuestion db qid with _ | q
      · simp only [h2] at hv
        exact absurd hv (by simp)
      · simp only [h2, Except.ok.injEq] at hv
        subst hv
        simp [hnone, timeLimitTruthy]

/-- Witness for C8: the timed sample session, read 250 seconds in. -/
theorem c8_time_limit_behaviour_witness :
    findSession sampleDB2 1 = some sessTimed
    ∧ accessDenied sessTimed.userId none = false
    ∧ isTerminalStatus sessTimed.status = false
    ∧ sessTimed.timeLimit ≠ some 0
    ∧ ((∀ l : Nat, sessTimed.timeLimit = some l → (l : ℤ) < jsElapsedSeconds 250000 sessTimed.startedAt →
          (getCurrentQuestion sampleDB2 none 1 250000).1 = .error (.validation "Test session has expired")
          ∧ (getCurrentQuestion sampleDB2 none 1 250000).2
              = updateSession sampleDB2 1 (fun t => { t with status := .completed, endedAt := some 250000 }))
       ∧ (∀ l : Nat, sessTimed.timeLimit = some l → jsElapsedSeconds 250000 sessTimed.startedAt ≤ (l : ℤ) →
          ∀ v : QuestionView, (getCurrentQuestion sampleDB2 none 1 250000).1 = .ok v →
            v.timeRemaining = some (max 0 ((l : ℤ) - jsElapsedSeconds 250000 sessTimed.startedAt)))
       ∧ (sessTimed.timeLimit = none →
          ∀ v : QuestionView, (getCurrentQuestion sampleDB2 none 1 250000).1 = .ok v →
            v.timeRemaining = none)) :=
  ⟨by decide, by decide, by decide, by decide,
   c8_time_limit_behaviour sampleDB2 none 1 250000 sessTimed
     (by decide) (by decide) (by decide) (by decide)⟩

/-! ## Result generation has no response-count precondition (claim C3) -/

/-- A session completed by the lazy timeout with only one of its two
questions answered. -/
def c3SessionRow : TestSession :=
  { userId := none, questionIds := [1, 2], currentIndex := 1, status := .completed,
    startedAt := 0, endedAt := some 302000, timeLimit := some 300 }

/-- Store holding `c3SessionRow` with a single stored response. -/
def c3db : DB :=
  { questions := [sampleQ1, sampleQ2], sessions := [(1, c3SessionRow)],
    responses := [sampleResp1], results := [] }

/-- Counterexample to claim C3: `generateTestResult` runs on a completed
session whose response count (1) differs from `questionIds.length` (2) and
succeeds — it performs no precondition check and raises no
`ValidationError`. -/
theorem c3_counterexample :
    (responsesFor c3db 1).length = 1
    ∧ c3SessionRow.questionIds.length = 2
    ∧ (getSessionResult c3db none 1).1
        = .ok { sessionStatus := .completed,
                result := some (computeResultRecord none (responsesFor c3db 1)),
                totalQuestions := 1,
                validityFlags := [] } :=
  ⟨by decide, by decide, rfl⟩

/-- Claim C3 (amended): result generation checks only that the session exists
and is completed without a stored result; it never compares the response
count with `questionIds.length` and scores whatever responses exist.  (At
least one response is assumed: on zero responses the JavaScript arithmetic
degenerates to NaN.) -/
theorem c3_no_precondition_check (db : DB) (caller : Option Nat) (sid : Nat)
    (s : TestSession) (hs : findSession db sid = some s)
    (hacc : accessDenied s.userId caller = false)
    (hcomp : s.status = .completed)
    (hnores : findResult db sid = none)
    (_hne : responsesFor db sid ≠ []) :
    (getSessionResult db caller sid).1
        = .ok { sessionStatus := s.status,
                result := some (computeResultRecord s.userId (responsesFor db sid)),
                totalQuestions := (responsesFor db sid).length,
                validityFlags := (computeResultRecord s.userId (responsesFor db sid)).validityFlags }
    ∧ (getSessionResult db caller sid).2
        = { db with results := db.results ++ [(sid, computeResultRecord s.userId (responsesFor db sid))] } := by
  simp [getSessionResult, hs, hacc, hnores, hcomp]

/-- Witness for the amended C3 at the concrete partial-response store. -/
theorem c3_no_precondition_check_witness :
    findSession c3db 1 = some c3SessionRow
    ∧ accessDenied c3SessionRow.userId none = false
    ∧ c3SessionRow.status = .completed
    ∧ findResult c3db 1 = none
    ∧ responsesFor c3db 1 ≠ []
    ∧ ((getSessionResult c3db none 1).1
          = .ok { sessionStatus := c3SessionRow.status,
                  result := some (computeResultRecord c3SessionRow.userId (responsesFor c3db 1)),
                  totalQuestions := (responsesFor c3db 1).length,
                  validityFlags := (computeResultRecord c3SessionRow.userId (responsesFor c3db 1)).validityFlags }
       ∧ (getSessionResult c3db none 1).2
          = { c3db with results := c3db.results ++ [(1, computeResultRecord c3SessionRow.userId (responsesFor c3db 1))] }) :=
  ⟨by decide, by decide, by decide, rfl, by decide,
   c3_no_precondition_check c3db none 1 c3SessionRow (by decide) (by decide) (by decide) rfl (by decide)⟩

/-! ## Idempotence of result generation (claim C4) -/

/-- In an association list with distinct keys, at most one row matches a key
(the uniqueness constraint `test_results_sessionId_key`). -/
theorem length_filter_key_le_one {α : Type} (l : List (Nat × α)) (sid : Nat)
    (h : (l.map Prod.fst).Nodup) :
    (l.filter (fun p => p.1 == sid)).length ≤ 1 := by
  induction l with
  | nil => simp
  | cons a t ih =>
    rw [List.map_cons, List.nodup_cons] at h
    rw [List.filter_cons]
    by_cases ha : a.1 = sid
    · have ht : t.filter (fun p => p.1 == sid) = [] := by
        rw [List.filter_eq_nil_iff]
        intro b hb
        simp only [beq_iff_eq]
        intro hbeq
        exact h.1 (by rw [ha, ← hbeq]; exact List.mem_map_of_mem Prod.fst hb)
      simp [ha, ht]
    · simp only [beq_iff_eq, ha, decide_False, cond_false]
      exact ih h.2

/-- Appending a result row for a previously result-free session makes it the
row found for that session. -/
theorem findResult_append_self {db : DB} {sid : Nat} {r : TestResult}
    (h : findResult db sid = none) :
    findResult { db with results := db.results ++ [(sid, r)] } sid = some r := by
  unfold findResult at h ⊢
  rw [Option.map_eq_none'] at h
  simp [List.find?_append, h]

/-- Claim C4: if a result row already exists for a completed session the
results route returns it unchanged without recomputing; the store keeps at
most one result row per session; and calling the route twice in a row yields
the same payload and the same store both times. -/
theorem c4_result_idempotent (db : DB) (caller : Option Nat) (sid : Nat) (s : TestSession)
    (hinv : Inv db) (hs : findSession db sid = some s)
    (hacc : accessDenied s.userId caller = false)
    (hcomp : s.status = .completed) :
    (∀ r, findResult db sid = some r →
       getSessionResult db caller sid
         = (.ok { sessionStatus := s.status, result := some r,
                  totalQuestions := (responsesFor db sid).length,
                  validityFlags := r.validityFlags }, db))
    ∧ (db.results.filter (fun p => p.1 == sid)).length ≤ 1
    ∧ getSessionResult ((getSessionResult db caller sid).2) caller sid
        = ((getSessionResult db caller sid).1, (getSessionResult db caller sid).2) := by
  refine ⟨?_, length_filter_key_le_one _ _ hinv.2.2.1, ?_⟩
  · intro r hr
    simp [getSessionResult, hs, hacc, hr]
  · rcases hr : findResult db sid with _ | r
    · have h1 : getSessionResult db caller sid
          = (.ok { sessionStatus := s.status,
                   result := some (computeResultRecord s.userId (responsesFor db sid)),
                   totalQuestions := (responsesFor db sid).length,
                   validityFlags := (computeResultRecord s.userId (responsesFor db sid)).validityFlags },
             { db with results := db.results
                 ++ [(sid, computeResultRecord s.userId (responsesFor db sid))] }) := by
        simp [getSessionResult, hs, hacc, hr, hcomp]
      have hs1 : findSession { db with results := db.results
          ++ [(sid, computeResultRecord s.userId (responsesFor db sid))] } sid = some s := hs
      have hr1 := findResult_append_self (r := computeResultRecord s.userId (responsesFor db sid)) hr
      rw [h1]
      simp [getSessionResult, hs1, hacc, hr1]
      rfl
    · have h1 : getSessionResult db caller sid
          = (.ok { sessionStatus := s.status, result := some r,
                   totalQuestions := (responsesFor db sid).length,
                   validityFlags := r.validityFlags }, db) := by
        simp [getSessionResult, hs, hacc, hr]
      rw [h1]
      simp [getSessionResult, hs, hacc, hr]

/-- Witness for C4 at the concrete completed-session store. -/
theorem c4_result_idempotent_witness :
    Inv c3db
    ∧ findSession c3db 1 = some c3SessionRow
    ∧ accessDenied c3SessionRow.userId none = false
    ∧ c3SessionRow.status = .completed
    ∧ ((∀ r, findResult c3db 1 = some r →
          getSessionResult c3db none 1
            = (.ok { sessionStatus := c3SessionRow.status, result := some r,
                     totalQuestions := (responsesFor c3db 1).length,
                     validityFlags := r.validityFlags }, c3db))
       ∧ (c3db.results.filter (fun p => p.1 == 1)).length ≤ 1
       ∧ getSessionResult ((getSessionResult c3db none 1).2) none 1
           = ((getSessionResult c3db none 1).1, (getSessionResult c3db none 1).2)) :=
  ⟨by decide, by decide, by decide, by decide,
   c4_result_idempotent c3db none 1 c3SessionRow (by decide) (by decide) (by decide) (by decide)⟩

/-! ## Sequential submission checks (claim C1) -/

/-- A member of the already-presented prefix of a duplicate-free list cannot
be the element at a position at or past the prefix. -/
theorem not_mem_take_of_get?_eq {l : List Nat} {i k a : Nat}
    (hnd : l.Nodup) (hk : l.get? k = some a) (hik : i ≤ k) :
    a ∉ l.take i := by
  intro hmem
  rcases List.mem_iff_get?.mp hmem with ⟨j, hj⟩
  have hjl : j < (l.take i).length := by
    by_contra hge
    rw [List.get?_eq_none.mpr (le_of_not_lt hge)] at hj
    cases hj
  have hji : j < i := by
    rw [List.length_take] at hjl
    omega
  have hlj : l.get? j = some a := by
    rw [← List.get?_take hji]
    exact hj
  have hjlen : j < l.length := by
    have := List.get?_eq_none (l := l) (n := j)
    by_contra hge
    rw [(List.get?_eq_none).mpr (le_of_not_lt hge)] at hlj
    cases hlj
  have hjk : j = k := by
    apply List.getElem?_inj hjlen hnd
    rw [← List.get?_eq_getElem?, ← List.get?_eq_getElem?, hlj, hk]
  omega

/-- A found session row is a member of the store. -/
theorem mem_sessions_of_findSession {db : DB} {sid : Nat} {s : TestSession}
    (h : findSession db sid = some s) : (sid, s) ∈ db.sessions := by
  unfold findSession at h
  rcases hf : db.sessions.find? (fun p => p.1 == sid) with _ | p
  · rw [hf] at h
    cases h
  · rw [hf] at h
    simp only [Option.map_some', Option.some.injEq] at h
    have hp := List.find?_some hf
    have hmem := List.mem_of_find?_eq_some hf
    rw [beq_iff_eq] at hp
    have hps : p = (sid, s) := by
      cases p
      simp only [Prod.mk.injEq]
      exact ⟨hp, h⟩
    rwa [hps] at hmem

/-- Claim C1 (amended): on an active session, a submission whose `questionId`
is not the question at `currentIndex` fails with `ValidationError` leaving the
store unchanged; and a second submission for an already-answered
(sessionId, questionId) pair also fails with `ValidationError` — not
`ConflictError` — because the current-index check rejects it before the
uniqueness constraint on Response is ever reached. -/
theorem c1_submission_checks (db : DB) (caller : Option Nat) (sid : Nat) (s : TestSession)
    (hinv : Inv db) (hs : findSession db sid = some s)
    (hact : isTerminalStatus s.status = false) :
    (∀ qid answer rt now, s.questionIds.get? s.currentIndex ≠ some qid →
        ∃ msg, submitResponse db caller sid qid answer rt now
            = (.error (.validation msg), db))
    ∧ (∀ qid answer rt now,
        (∃ r ∈ db.responses, r.sessionId = sid ∧ r.questionId = qid) →
        (∃ msg, submitResponse db caller sid qid answer rt now
            = (.error (.validation msg), db))
        ∧ ∀ m, (submitResponse db caller sid qid answer rt now).1 ≠ .error (.conflict m)) := by
  have partA : ∀ qid answer rt now, s.questionIds.get? s.currentIndex ≠ some qid →
      ∃ msg, submitResponse db caller sid qid answer rt now
          = (.error (.validation msg), db) := by
    intro qid answer rt now hmis
    by_cases hans : answer = ""
    · exact ⟨"Answer is required", by simp [submitResponse, hans]⟩
    · by_cases hacc : accessDenied s.userId caller
      · exact ⟨"Access denied to this test session", by simp [submitResponse, hans, hs, hacc]⟩
      · rcases hg : s.questionIds.get? s.currentIndex with _ | e
        · have hg' : s.questionIds[s.currentIndex]? = none := by
            rw [← List.get?_eq_getElem?]
            exact hg
          exact ⟨"Invalid question for current session state",
            by simp [submitResponse, hans, hs, hacc, hact, hg']⟩
        · have hg' : s.questionIds[s.currentIndex]? = some e := by
            rw [← List.get?_eq_getElem?]
            exact hg
          have hne : qid ≠ e := fun h => hmis (h ▸ hg)
          exact ⟨"Invalid question for current session state",
            by simp [submitResponse, hans, hs, hacc, hact, hg', hne]⟩
  refine ⟨partA, ?_⟩
  rintro qid answer rt now ⟨r, hrmem, hrsid, hrqid⟩
  have hsi : SessionInv db sid s :=
    hinv.2.2.2.1 (sid, s) (mem_sessions_of_findSession hs)
  have htake : qid ∈ s.questionIds.take s.currentIndex := by
    rw [← hrqid]
    exact hsi.2.2.1 r hrmem hrsid
  have hmis : s.questionIds.get? s.currentIndex ≠ some qid := by
    intro hg
    exact not_mem_take_of_get?_eq hsi.2.1 hg le_rfl htake
  rcases partA qid answer rt now hmis with ⟨msg, hmsg⟩
  refine ⟨⟨msg, hmsg⟩, ?_⟩
  intro m
  rw [hmsg]
  simp

/-- Witness for the amended C1: the pair (1, 1) of `c3db` was already
answered; only the per-branch checks of the handler fire.  The store `c1db`
reuses the sample questions with an active session that has already consumed
question 1. -/
def c1db : DB :=
  { questions := [sampleQ1, sampleQ2],
    sessions := [(1, { userId := none, questionIds := [1, 2], currentIndex := 1,
                       status := .inProgress, startedAt := 0, endedAt := none,
                       timeLimit := none })],
    responses := [sampleResp1], results := [] }

/-- The session row of `c1db`. -/
def c1Session : TestSession :=
  { userId := none, questionIds := [1, 2], currentIndex := 1, status := .inProgress,
    startedAt := 0, endedAt := none, timeLimit := none }

/-- Witness for the amended C1 at the concrete store. -/
theorem c1_submission_checks_witness :
    Inv c1db
    ∧ findSession c1db 1 = some c1Session
    ∧ isTerminalStatus c1Session.status = false
    ∧ ((∀ qid answer rt now, c1Session.questionIds.get? c1Session.currentIndex ≠ some qid →
          ∃ msg, submitResponse c1db none 1 qid answer rt now
              = (.error (.validation msg), c1db))
       ∧ (∀ qid answer rt now,
          (∃ r ∈ c1db.responses, r.sessionId = 1 ∧ r.questionId = qid) →
          (∃ msg, submitResponse c1db none 1 qid answer rt now
              = (.error (.validation msg), c1db))
          ∧ ∀ m, (submitResponse c1db none 1 qid answer rt now).1 ≠ .error (.conflict m))) :=
  ⟨by decide, by decide, by decide,
   c1_submission_checks c1db none 1 c1Session (by decide) (by decide) (by decide)⟩

/-- Counterexample to claim C1 as stated: after question 1 of the running
sample session is answered, submitting the same (sessionId, questionId) pair
again fails with `ValidationError` (HTTP 400), not with `ConflictError`
(HTTP 409). -/
theorem c1_counterexample :
    (submitResponse sampleDB1 none 1 1 "a" 500 1000).1
        = .ok { isCorrect := true, completed := false, nextQuestion := some 2 }
    ∧ (submitResponse (submitResponse sampleDB1 none 1 1 "a" 500 1000).2 none 1 1 "a" 500 2000).1
        = .error (.validation "Invalid question for current session state")
    ∧ (ApiError.validation "Invalid question for current session state").statusCode = 400
    ∧ (ApiError.validation "Invalid question for current session state").statusCode ≠ 409 :=
  ⟨by decide, by decide, by decide, by decide⟩

/-! ## The abandon endpoint (claim C6)

The frontend `TestService.abandonTest` posts to `/test/:sessionId/abandon`,
but the test router registers no such route; the request falls through to the
404 handler.  The router's registered routes are modelled as method/pattern
pairs with Express-style `:param` segments. -/

/-- One segment of an Express route pattern: a literal or a `:param`. -/
inductive Seg where
  | lit (s : String)
  | param
deriving DecidableEq, Repr

/-- Express path matching of a pattern against concrete path segments. -/
def matchSegs : List Seg → List String → Bool
  | [], [] => true
  | .lit s :: ps, x :: xs => s == x && matchSegs ps xs
  | .param :: ps, _ :: xs => matchSegs ps xs
  | _, _ => false

/-- A registered route: HTTP method and path pattern. -/
structure Route where
  method : String
  pattern : List Seg
deriving DecidableEq, Repr

/-- The four routes registered on the test router, in source order:
`POST /start`, `GET /:sessionId/question`, `POST /:sessionId/response`,
`GET /:sessionId/status`. -/
def testRouterRoutes : List Route :=
  [ ⟨"POST", [.lit "start"]⟩,
    ⟨"GET", [.param, .lit "question"]⟩,
    ⟨"POST", [.param, .lit "response"]⟩,
    ⟨"GET", [.param, .lit "status"]⟩ ]

/-- Express dispatch: the first registered route whose method and pattern
match the request. -/
def dispatch (routes : List Route) (method : String) (path : List String) : Option Route :=
  routes.find? (fun r => r.method == method && matchSegs r.pattern path)

/-- Claim C6 (code bug): for every session id, `POST /test/:sessionId/abandon`
matches no route of the test router, so the request reaches the not-found
handler and is answered with `NotFoundError` (HTTP 404); no handler exists
that could set the session status to Abandoned. -/
theorem c6_abandon_route_missing (sid : String) :
    dispatch testRouterRoutes "POST" [sid, "abandon"] = none
    ∧ (ApiError.notFound ("Route /api/test/" ++ sid ++ "/abandon not found")).statusCode = 404 := by
  constructor
  · simp [dispatch, testRouterRoutes, matchSegs]
  · rfl

/-! ## Reachability invariants (claim C9) -/

/-- Inserting is a permutation of consing. -/
theorem insertByDifficulty_perm (q : Question) (l : List Question) :
    List.Perm (insertByDifficulty q l) (q :: l) := by
  induction l with
  | nil => exact List.Perm.refl _
  | cons x xs ih =>
    unfold insertByDifficulty
    by_cases h : q.difficulty ≤ x.difficulty
    · rw [if_pos h]
    · rw [if_neg h]
      exact (ih.cons x).trans (List.Perm.swap q x xs)

/-- The difficulty sort is a permutation. -/
theorem sortByDifficulty_perm (l : List Question) : List.Perm (sortByDifficulty l) l := by
  induction l with
  | nil => exact List.Perm.refl _
  | cons x xs ih => exact (insertByDifficulty_perm x _).trans (ih.cons x)

/-- The generated question sequence has no duplicate ids when the bank has
none (primary keys). -/
theorem generateQuestionSequence_nodup (db : DB) (t : TestType)
    (h : (db.questions.map Question.id).Nodup) :
    (generateQuestionSequence db t).Nodup := by
  unfold generateQuestionSequence
  have hfil : ((db.questions.filter
      (fun q => q.isActive && (testTypeCategories t).contains q.category)).map Question.id).Nodup :=
    ((List.filter_sublist _).map Question.id).nodup h
  have hsort : ((sortByDifficulty (db.questions.filter
      (fun q => q.isActive && (testTypeCategories t).contains q.category))).map Question.id).Nodup :=
    hfil.perm ((sortByDifficulty_perm _).map Question.id).symm
  exact (((List.take_sublist _ _).trans (List.take_sublist _ _)).map Question.id).nodup hsort

/-- The keys of the session table are untouched by a session update. -/
theorem updateSession_keys (db : DB) (sid : Nat) (f : TestSession → TestSession) :
    (updateSession db sid f).sessions.map Prod.fst = db.sessions.map Prod.fst := by
  unfold updateSession
  rw [List.map_map]
  apply List.map_congr_left
  intro p _
  by_cases h : p.1 = sid
  · simp [h]
  · simp [h]

/-- Membership in an updated session table. -/
theorem mem_updateSession {db : DB} {sid : Nat} {f : TestSession → TestSession}
    {p' : Nat × TestSession} :
    p' ∈ (updateSession db sid f).sessions ↔
      ∃ p ∈ db.sessions, p' = if p.1 == sid then (p.1, f p.2) else p := by
  unfold updateSession
  simp only [List.mem_map]
  constructor
  · rintro ⟨p, hp, rfl⟩
    exact ⟨p, hp, rfl⟩
  · rintro ⟨p, hp, rfl⟩
    exact ⟨p, hp, rfl⟩

/-- A key present in the session table stays present after an update. -/
theorem key_mem_updateSession {db : DB} {sid : Nat} {f : TestSession → TestSession}
    {k : Nat} (h : ∃ p ∈ db.sessions, p.1 = k) :
    ∃ p' ∈ (updateSession db sid f).sessions, p'.1 = k := by
  rcases h with ⟨p, hp, hk⟩
  refine ⟨if p.1 == sid then (p.1, f p.2) else p, mem_updateSession.mpr ⟨p, hp, rfl⟩, ?_⟩
  subst hk
  by_cases hc : p.1 = sid
  · simp [hc]
  · simp [hc]

/-- Two rows of a table with duplicate-free keys that share a key are the
same row. -/
theorem eq_of_keys_nodup {α : Type} {l : List (Nat × α)} (h : (l.map Prod.fst).Nodup)
    {p q : Nat × α} (hp : p ∈ l) (hq : q ∈ l) (hk : p.1 = q.1) : p = q := by
  induction l with
  | nil => cases hp
  | cons x t ih =>
    rw [List.map_cons, List.nodup_cons] at h
    rcases List.mem_cons.mp hp with rfl | hp'
    · rcases List.mem_cons.mp hq with rfl | hq'
      · rfl
      · exact absurd (hk ▸ List.mem_map_of_mem Prod.fst hq') h.1
    · rcases List.mem_cons.mp hq with rfl | hq'
      · exact absurd (hk ▸ List.mem_map_of_mem Prod.fst hp') h.1
      · exact ih h.2 hp' hq'

/-- Results lookup is insensitive to appending a row for a different key. -/
theorem findResult_append_other {db : DB} {sid sid' : Nat} {r : TestResult}
    (hne : sid' ≠ sid) :
    findResult { db with results := db.results ++ [(sid, r)] } sid' = findResult db sid' := by
  unfold findResult
  rw [List.find?_append]
  have h1 : [(sid, r)].find? (fun p => p.1 == sid') = none := by
    simp [Ne.symm hne]
  rw [h1, Option.or_none]

/-- Branch characterization of the start handler: every failure branch leaves
the store unchanged; success appends exactly the created session row. -/
theorem startSession_snd (db : DB) (caller : Option Nat) (newSid : Nat)
    (t : Option TestType) (tl : Option Nat) (now : Nat) :
    (startSession db caller newSid t tl now).2 = db ∨
    ((tl.any (fun l => l < 300 || 7200 < l)) = false ∧ findSession db newSid = none ∧
     (startSession db caller newSid t tl now).2
       = { db with sessions := db.sessions ++
           [(newSid, { userId := caller,
                       questionIds := generateQuestionSequence db (t.getD .full_iq),
                       currentIndex := 0, status := .started, startedAt := now,
                       endedAt := none, timeLimit := tl })] }) := by
  by_cases h1 : tl.any (fun l => l < 300 || 7200 < l)
  · left
    simp [startSession, h1]
  · by_cases h2 : (findSession db newSid).isSome
    · left
      simp [startSession, h1, h2]
    · right
      refine ⟨by simpa using h1, Option.not_isSome_iff_eq_none.mp h2, ?_⟩
      simp [startSession, h1, h2]

/-- Branch characterization of the question handler: only the lazy-timeout
branch mutates the store, flipping the session to Completed. -/
theorem getCurrentQuestion_snd (db : DB) (caller : Option Nat) (sid now : Nat) :
    (getCurrentQuestion db caller sid now).2 = db ∨
    ∃ s, findSession db sid = some s ∧ accessDenied s.userId caller = false
      ∧ isTerminalStatus s.status = false
      ∧ (getCurrentQuestion db caller sid now).2
          = updateSession db sid (fun t => { t with status := .completed, endedAt := some now }) := by
  rcases hs : findSession db sid with _ | s
  · left
    simp [getCurrentQuestion, hs]
  · by_cases hacc : accessDenied s.userId caller
    · left
      simp [getCurrentQuestion, hs, hacc]
    · by_cases hact : isTerminalStatus s.status
      · left
        simp [getCurrentQuestion, hs, hacc, hact]
      · by_cases hto : (timeLimitTruthy s.timeLimit
            && decide (jsElapsedSeconds now s.startedAt > (s.timeLimit.getD 0 : ℤ))) = true
        · right
          refine ⟨s, rfl, by simpa using hacc, by simpa using hact, ?_⟩
          simp [getCurrentQuestion, hs, hacc, hact, hto]
        · left
          simp [getCurrentQuestion, hs, hacc, hact, hto]

/-- Branch characterization of the submission handler: every failure branch
leaves the store unchanged; success appends the response row and advances the
session. -/
theorem submitResponse_snd (db : DB) (caller : Option Nat) (sid qid : Nat)
    (answer : String) (rt now : Nat) :
    (submitResponse db caller sid qid answer rt now).2 = db ∨
    ∃ s q, findSession db sid = some s
      ∧ accessDenied s.userId caller = false
      ∧ isTerminalStatus s.status = false
      ∧ s.questionIds.get? s.currentIndex = some qid
      ∧ findQuestion db qid = some q
      ∧ (db.responses.any (fun r => r.sessionId == sid && r.questionId == qid)) = false
      ∧ (submitResponse db caller sid qid answer rt now).2
          = updateSession
              { db with responses := db.responses
                  ++ [{ sessionId := sid, questionId := qid, answer := answer,
                        isCorrect := answer == q.correctAnswer, responseTime := rt }] }
              sid
              (fun t => { t with
                 currentIndex := s.currentIndex + 1,
                 status := if s.questionIds.length ≤ s.currentIndex + 1
                           then .completed else .inProgress,
                 endedAt := if s.questionIds.length ≤ s.currentIndex + 1
                            then some now else t.endedAt }) := by
  by_cases hans : answer = ""
  · left
    simp [submitResponse, hans]
  · rcases hs : findSession db sid with _ | s
    · left
      simp [submitResponse, hans, hs]
    · by_cases hacc : accessDenied s.userId caller
      · left
        simp [submitResponse, hans, hs, hacc]
      · by_cases hact : isTerminalStatus s.status
        · left
          simp [submitResponse, hans, hs, hacc, hact]
        · rcases hg : s.questionIds[s.currentIndex]? with _ | e
          · left
            simp [submitResponse, hans, hs, hacc, hact, hg]
          · by_cases hqe : qid = e
            · subst hqe
              rcases hq : findQuestion db qid with _ | q
              · left
                simp [submitResponse, hans, hs, hacc, hact, hg, hq]
              · by_cases hdup :
                    (db.responses.any (fun r => r.sessionId == sid && r.questionId == qid)) = true
                · left
                  simp [submitResponse, hans, hs, hacc, hact, hg, hq, hdup]
                · right
                  refine ⟨s, q, rfl, by simpa using hacc, by simpa using hact,
                    by rw [List.get?_eq_getElem?]; exact hg, rfl,
                    by simpa using hdup, ?_⟩
                  simp [submitResponse, hans, hs, hacc, hact, hg, hq, hdup,
                    apply_ite Prod.snd]
            · left
              simp [submitResponse, hans, hs, hacc, hact, hg, hqe]

/-- The start handler never touches the response table. -/
theorem startSession_responses (db : DB) (caller : Option Nat) (newSid : Nat)
    (t : Option TestType) (tl : Option Nat) (now : Nat) :
    (startSession db caller newSid t tl now).2.responses = db.responses := by
  rcases startSession_snd db caller newSid t tl now with h | ⟨_, _, h⟩ <;> rw [h] <;> rfl

/-- The question handler never touches the response table. -/
theorem getCurrentQuestion_responses (db : DB) (caller : Option Nat) (sid now : Nat) :
    (getCurrentQuestion db caller sid now).2.responses = db.responses := by
  rcases getCurrentQuestion_snd db caller sid now with h | ⟨_, _, _, _, h⟩ <;> rw [h] <;> rfl

/-- Branch characterization of the results route: only a completed session
with no stored result mutates the store, appending its computed result. -/
theorem getSessionResult_snd (db : DB) (caller : Option Nat) (sid : Nat) :
    (getSessionResult db caller sid).2 = db ∨
    ∃ s, findSession db sid = some s ∧ accessDenied s.userId caller = false
      ∧ s.status = .completed ∧ findResult db sid = none
      ∧ (getSessionResult db caller sid).2
          = { db with results := db.results
              ++ [(sid, computeResultRecord s.userId (responsesFor db sid))] } := by
  rcases hs : findSession db sid with _ | s
  · left
    simp [getSessionResult, hs]
  · by_cases hacc : accessDenied s.userId caller
    · left
      simp [getSessionResult, hs, hacc]
    · by_cases hcond : ((findResult db sid).isNone && s.status == SessionStatus.completed) = true
      · right
        rw [Bool.and_eq_true] at hcond
        refine ⟨s, rfl, by simpa using hacc, by simpa using hcond.2,
          Option.isNone_iff_eq_none.mp hcond.1, ?_⟩
        simp [getSessionResult, hs, hacc, hcond.1, hcond.2]
      · left
        simp only [getSessionResult, hs]
        simp [hacc, hcond]

/-- The results route never touches the response table. -/
theorem getSessionResult_responses (db : DB) (caller : Option Nat) (sid : Nat) :
    (getSessionResult db caller sid).2.responses = db.responses := by
  rcases getSessionResult_snd db caller sid with h | ⟨_, _, _, _, _, h⟩ <;> rw [h] <;> rfl

/-- A present result row gives a matching key in the result table. -/
theorem exists_result_key_of_isSome {db : DB} {sid : Nat}
    (h : (findResult db sid).isSome) : ∃ q ∈ db.results, q.1 = sid := by
  unfold findResult at h
  rw [Option.isSome_map'] at h
  rw [List.find?_isSome] at h
  rcases h with ⟨x, hx, hpx⟩
  exact ⟨x, hx, by simpa using hpx⟩

instance decidableEqNilList {α : Type} (l : List α) : Decidable (l = []) :=
  match l with
  | [] => isTrue rfl
  | _ :: _ => isFalse (by simp)

instance (db : DB) : Decidable (InitDB db) := by
  unfold InitDB
  infer_instance

/-- An initial store satisfies the invariant. -/
theorem inv_init {db : DB} (h : InitDB db) : Inv db := by
  obtain ⟨hq, hs, hr, hres⟩ := h
  refine ⟨hq, ?_, ?_, ?_, ?_, ?_⟩
  · rw [hs]
    simp
  · rw [hres]
    simp
  · rw [hs]
    simp
  · rw [hr]
    simp
  · rw [hres]
    simp

/-- The start handler preserves the invariant. -/
theorem inv_start (db : DB) (caller : Option Nat) (newSid : Nat) (t : Option TestType)
    (tl : Option Nat) (now : Nat) (hinv : Inv db) :
    Inv (startSession db caller newSid t tl now).2 := by
  rcases startSession_snd db caller newSid t tl now with h | ⟨hval, hfresh, h⟩
  · rw [h]
    exact hinv
  · rw [h]
    obtain ⟨hqn, hkn, hrn, hsi, hresp, hres⟩ := hinv
    have hfresh' : ∀ p ∈ db.sessions, p.1 ≠ newSid := by
      intro p hp
      unfold findSession at hfresh
      rw [Option.map_eq_none'] at hfresh
      have := List.find?_eq_none.mp hfresh p hp
      simpa using this
    refine ⟨hqn, ?_, hrn, ?_, ?_, ?_⟩
    · rw [List.map_append]
      simp only [List.map_cons, List.map_nil]
      rw [List.nodup_append]
      refine ⟨hkn, List.nodup_singleton _, ?_⟩
      intro a ha hb
      simp only [List.mem_singleton] at hb
      subst hb
      rcases List.mem_map.mp ha with ⟨p, hp, hpk⟩
      exact hfresh' p hp hpk
    · intro p hp
      rcases List.mem_append.mp hp with hp | hp
      · exact hsi p hp
      · simp only [List.mem_singleton] at hp
        subst hp
        refine ⟨Nat.zero_le _, generateQuestionSequence_nodup db _ hqn, ?_, ?_, ?_⟩
        · intro r hr hrs
          exfalso
          rcases hresp r hr with ⟨p', hp', hpk⟩
          exact hfresh' p' hp' (hpk.trans hrs)
        · intro hsome
          exfalso
          rcases exists_result_key_of_isSome hsome with ⟨q', hq', hqk⟩
          rcases hres q' hq' with ⟨p', hp', hpk⟩
          exact hfresh' p' hp' (hpk.trans hqk)
        · intro l hl
          have hl' : tl = some l := hl
          rw [hl'] at hval
          simp only [Option.any_some] at hval
          simp only [Bool.or_eq_false_iff, decide_eq_false_iff_not, not_lt] at hval
          exact ⟨hval.1, hval.2⟩
    · intro r hr
      rcases hresp r hr with ⟨p', hp', hpk⟩
      exact ⟨p', List.mem_append_left _ hp', hpk⟩
    · intro q hq
      rcases hres q hq with ⟨p', hp', hpk⟩
      exact ⟨p', List.mem_append_left _ hp', hpk⟩

/-- The question handler preserves the invariant. -/
theorem inv_question (db : DB) (caller : Option Nat) (sid now : Nat) (hinv : Inv db) :
    Inv (getCurrentQuestion db caller sid now).2 := by
  rcases getCurrentQuestion_snd db caller sid now with h | ⟨s, hs, hacc, hact, h⟩
  · rw [h]
    exact hinv
  · rw [h]
    obtain ⟨hqn, hkn, hrn, hsi, hresp, hres⟩ := hinv
    refine ⟨hqn, ?_, hrn, ?_, ?_, ?_⟩
    · rw [updateSession_keys]
      exact hkn
    · intro p' hp'
      rcases mem_updateSession.mp hp' with ⟨p, hp, hdef⟩
      have hold := hsi p hp
      by_cases hc : p.1 = sid
      · have hcond : ((p.1 == sid) = true) := by simpa using hc
        rw [hdef, if_pos hcond]
        exact ⟨hold.1, hold.2.1, fun r hr hrs => hold.2.2.1 r hr hrs,
          fun _ => rfl, hold.2.2.2.2⟩
      · have hcond : ¬ ((p.1 == sid) = true) := by simpa using hc
        rw [hdef, if_neg hcond]
        exact hold
    · intro r hr
      exact key_mem_updateSession (hresp r hr)
    · intro q hq
      exact key_mem_updateSession (hres q hq)

/-- The results route preserves the invariant. -/
theorem inv_result (db : DB) (caller : Option Nat) (sid : Nat) (hinv : Inv db) :
    Inv (getSessionResult db caller sid).2 := by
  rcases getSessionResult_snd db caller sid with h | ⟨s, hs, hacc, hcomp, hnores, h⟩
  · rw [h]
    exact hinv
  · rw [h]
    obtain ⟨hqn, hkn, hrn, hsi, hresp, hres⟩ := hinv
    have hNoKey : ∀ q ∈ db.results, q.1 ≠ sid := by
      intro q hq
      unfold findResult at hnores
      rw [Option.map_eq_none'] at hnores
      have := List.find?_eq_none.mp hnores q hq
      simpa using this
    refine ⟨hqn, hkn, ?_, ?_, ?_, ?_⟩
    · rw [List.map_append]
      simp only [List.map_cons, List.map_nil]
      rw [List.nodup_append]
      refine ⟨hrn, List.nodup_singleton _, ?_⟩
      intro a ha hb
      simp only [List.mem_singleton] at hb
      subst hb
      rcases List.mem_map.mp ha with ⟨q, hq, hqk⟩
      exact hNoKey q hq hqk
    · intro p hp
      have hold := hsi p hp
      refine ⟨hold.1, hold.2.1, hold.2.2.1, ?_, hold.2.2.2.2⟩
      intro hsome
      by_cases hc : p.1 = sid
      · have hps : p = (sid, s) := eq_of_keys_nodup hkn hp (mem_sessions_of_findSession hs) hc
        rw [hps]
        exact hcomp
      · rw [findResult_append_other hc] at hsome
        exact hold.2.2.2.1 hsome
    · intro r hr
      exact hresp r hr
    · intro q hq
      rcases List.mem_append.mp hq with hq | hq
      · exact hres q hq
      · simp only [List.mem_singleton] at hq
        subst hq
        exact ⟨(sid, s), mem_sessions_of_findSession hs, rfl⟩

/-- The submission handler preserves the invariant. -/
theorem inv_submit (db : DB) (caller : Option Nat) (sid qid : Nat) (answer : String)
    (rt now : Nat) (hinv : Inv db) :
    Inv (submitResponse db caller sid qid answer rt now).2 := by
  rcases submitResponse_snd db caller sid qid answer rt now with
    h | ⟨s, q, hs, hacc, hact, hg, hq, hdup, h⟩
  · rw [h]
    exact hinv
  · rw [h]
    obtain ⟨hqn, hkn, hrn, hsi, hresp, hres⟩ := hinv
    have hssmem : (sid, s) ∈ db.sessions := mem_sessions_of_findSession hs
    have hidx : s.currentIndex < s.questionIds.length := by
      rcases List.get?_eq_some.mp hg with ⟨hlt, _⟩
      exact hlt
    refine ⟨hqn, ?_, hrn, ?_, ?_, ?_⟩
    · rw [updateSession_keys]
      exact hkn
    · intro p' hp'
      rcases mem_updateSession.mp hp' with ⟨p, hp, hdef⟩
      by_cases hc : p.1 = sid
      · have hps : p = (sid, s) := eq_of_keys_nodup hkn hp hssmem hc
        subst hps
        have hcond : (((sid, s).1 == sid) = true) := by simp
        rw [hdef, if_pos hcond]
        have hold := hsi _ hssmem
        refine ⟨by simpa using hidx, hold.2.1, ?_, ?_, hold.2.2.2.2⟩
        · intro r hr hrs
          rcases List.mem_append.mp hr with hr | hr
          · have := hold.2.2.1 r hr hrs
            rw [List.take_succ]
            exact List.mem_append_left _ this
          · simp only [List.mem_singleton] at hr
            subst hr
            rw [List.take_succ]
            apply List.mem_append_right
            rw [← List.get?_eq_getElem?, hg]
            simp
        · intro hsome
          exfalso
          have hcompl : s.status = .completed := hold.2.2.2.1 hsome
          rw [hcompl] at hact
          simp [isTerminalStatus] at hact
      · have hcond : ¬ ((p.1 == sid) = true) := by simpa using hc
        rw [hdef, if_neg hcond]
        have hold := hsi p hp
        refine ⟨hold.1, hold.2.1, ?_, hold.2.2.2.1, hold.2.2.2.2⟩
        intro r hr hrs
        rcases List.mem_append.mp hr with hr | hr
        · exact hold.2.2.1 r hr hrs
        · simp only [List.mem_singleton] at hr
          subst hr
          exact absurd hrs.symm (by simpa using hc)
    · intro r hr
      rcases List.mem_append.mp hr with hr | hr
      · exact key_mem_updateSession (hresp r hr)
      · simp only [List.mem_singleton] at hr
        subst hr
        exact key_mem_updateSession ⟨(sid, s), hssmem, rfl⟩
    · intro q' hq'
      exact key_mem_updateSession (hres q' hq')

/-- Every public step preserves the invariant. -/
theorem inv_step {db db' : DB} (h : Step db db') (hinv : Inv db) : Inv db' := by
  cases h with
  | start caller newSid t tl now => exact inv_start db caller newSid t tl now hinv
  | question caller sid now => exact inv_question db caller sid now hinv
  | submit caller sid qid answer rt now => exact inv_submit db caller sid qid answer rt now hinv
  | result caller sid => exact inv_result db caller sid hinv

/-- Every reachable store satisfies the invariant. -/
theorem inv_reachable {db0 db : DB} (h : Reachable db0 db) : Inv db := by
  rcases h with ⟨hinit, hsteps⟩
  induction hsteps with
  | refl => exact inv_init hinit
  | tail _ hstep ih => exact inv_step hstep ih

/-- New response rows only ever appear through the submission handler, and
always for the question at the session's current index in the pre-state. -/
theorem step_new_responses {db db' : DB} (h : Step db db') :
    ∀ r ∈ db'.responses, r ∈ db.responses ∨
      ∃ s, findSession db r.sessionId = some s
        ∧ s.questionIds.get? s.currentIndex = some r.questionId := by
  cases h with
  | start caller newSid t tl now =>
    intro r hr
    rw [startSession_responses] at hr
    exact .inl hr
  | question caller sid now =>
    intro r hr
    rw [getCurrentQuestion_responses] at hr
    exact .inl hr
  | result caller sid =>
    intro r hr
    rw [getSessionResult_responses] at hr
    exact .inl hr
  | submit caller sid qid answer rt now =>
    intro r hr
    rcases submitResponse_snd db caller sid qid answer rt now with
      h | ⟨s, q, hs, _, _, hg, _, _, h⟩
    · rw [h] at hr
      exact .inl hr
    · rw [h] at hr
      have hr' : r ∈ db.responses
          ++ [{ sessionId := sid, questionId := qid, answer := answer,
                isCorrect := answer == q.correctAnswer, responseTime := rt }] := hr
      rcases List.mem_append.mp hr' with hmem | hmem
      · exact .inl hmem
      · simp only [List.mem_singleton] at hmem
        subst hmem
        exact .inr ⟨s, hs, hg⟩

/-- Claim C9 (amended): in every reachable store a session's `currentIndex`
never exceeds `questionIds.length`, and a Response row is only ever created
for the question at the session's `currentIndex` at the moment of submission;
but a TestResult is only guaranteed to be created for a session whose status
is Completed — which the lazy timeout can set with `currentIndex` strictly
below `questionIds.length`. -/
theorem c9_reachable_invariants :
    (∀ db0 db, Reachable db0 db →
        ∀ p ∈ db.sessions, p.2.currentIndex ≤ p.2.questionIds.length)
    ∧ (∀ db db', Step db db' → ∀ r ∈ db'.responses, r ∈ db.responses ∨
        ∃ s, findSession db r.sessionId = some s
          ∧ s.questionIds.get? s.currentIndex = some r.questionId)
    ∧ (∀ db0 db, Reachable db0 db →
        ∀ q ∈ db.results, ∃ p ∈ db.sessions, p.1 = q.1 ∧ p.2.status = .completed) := by
  refine ⟨?_, ?_, ?_⟩
  · intro db0 db h p hp
    exact ((inv_reachable h).2.2.2.1 p hp).1
  · intro db db' h
    exact step_new_responses h
  · intro db0 db h q hq
    have hinv := inv_reachable h
    rcases hinv.2.2.2.2.2 q hq with ⟨p, hp, hpk⟩
    refine ⟨p, hp, hpk, ?_⟩
    apply (hinv.2.2.2.1 p hp).2.2.2.1
    unfold findResult
    rw [Option.isSome_map', List.find?_isSome]
    exact ⟨q, hq, by simp [hpk]⟩

/-- The session created in `sampleDB1`. -/
def sessUntimed : TestSession :=
  { userId := none, questionIds := [1, 2], currentIndex := 0, status := .started,
    startedAt := 0, endedAt := none, timeLimit := none }

/-- Witness for the amended C9 on a one-step trace. -/
theorem c9_reachable_invariants_witness :
    Reachable sampleDB0 sampleDB1
    ∧ (1, sessUntimed) ∈ sampleDB1.sessions
    ∧ sessUntimed.currentIndex ≤ sessUntimed.questionIds.length := by
  have hreach : Reachable sampleDB0 sampleDB1 :=
    ⟨by decide, Relation.ReflTransGen.single (Step.start sampleDB0 none 1 (some .practice) none 0)⟩
  exact ⟨hreach, by decide,
    c9_reachable_invariants.1 sampleDB0 sampleDB1 hreach (1, sessUntimed) (by decide)⟩

/-- Trace for the counterexample: timed session, one answer, timeout on read,
then the results route. -/
def c9dbA : DB := (startSession sampleDB0 none 1 (some .practice) (some 300) 0).2

/-- After answering question 1 at second 1. -/
def c9dbB : DB := (submitResponse c9dbA none 1 1 "a" 500 1000).2

/-- After a question read at second 302 (past the 300-second limit), which
completes the session by timeout at `currentIndex = 1`. -/
def c9dbC : DB := (getCurrentQuestion c9dbB none 1 302000).2

/-- After the results route, which persists a TestResult for the
partially-answered session. -/
noncomputable def c9dbD : DB := (getSessionResult c9dbC none 1).2

/-- The session row of the final store of the trace. -/
def c9FinalSession : TestSession :=
  { userId := none, questionIds := [1, 2], currentIndex := 1, status := .completed,
    startedAt := 0, endedAt := some 302000, timeLimit := some 300 }

/-- Counterexample to claim C9 as stated: a reachable store in which a
TestResult row exists for a session whose `currentIndex` (1) is strictly
below `questionIds.length` (2) — the timeout path creates results before all
questions are answered. -/
theorem c9_counterexample :
    Reachable sampleDB0 c9dbD
    ∧ findSession c9dbD 1 = some c9FinalSession
    ∧ (findResult c9dbD 1).isSome = true
    ∧ c9FinalSession.currentIndex < c9FinalSession.questionIds.length := by
  refine ⟨⟨by decide, ?_⟩, by decide, by decide, by decide⟩
  exact (((Relation.ReflTransGen.single
      (Step.start sampleDB0 none 1 (some .practice) (some 300) 0)).tail
      (Step.submit c9dbA none 1 1 "a" 500 1000)).tail
      (Step.question c9dbB none 1 302000)).tail
      (Step.result c9dbC none 1)

/-! ## The percentile computation (claim C5)

`calculatePercentile` is analysed over `ℝ`: exact rational constants, the
real exponential for `Math.exp` and the real square root for `Math.sqrt`. -/

/-- Derivative of the Abramowitz–Stegun polynomial. -/
def erfPolyDeriv (t : ℝ) : ℝ :=
  ((4 * 1.061405429 * t + 3 * -1.453152027) * t + 2 * 1.421413741) * t + -0.284496736

theorem hasDerivAt_erfPoly (t : ℝ) : HasDerivAt erfPoly (erfPolyDeriv t) t := by
  have h1 : HasDerivAt (fun t : ℝ => 1.061405429 * t + -1.453152027) 1.061405429 t := by
    simpa using ((hasDerivAt_id t).const_mul (1.061405429 : ℝ)).add_const (-1.453152027 : ℝ)
  have h2 := (h1.mul (hasDerivAt_id t)).add_const (1.421413741 : ℝ)
  have h3 := (h2.mul (hasDerivAt_id t)).add_const (-0.284496736 : ℝ)
  have h4 := (h3.mul (hasDerivAt_id t)).add_const (0.254829592 : ℝ)
  convert h4 using 1
  simp only [id_eq]
  unfold erfPolyDeriv
  ring

theorem hasDerivAt_erfPos (x : ℝ) (hx : (1:ℝ) + 0.3275911 * x ≠ 0) :
    HasDerivAt erfPos
      (Real.exp (-(x*x)) * (0.3275911 * (1/(1+0.3275911*x))^2 *
         (erfPolyDeriv (1/(1+0.3275911*x)) * (1/(1+0.3275911*x)) + erfPoly (1/(1+0.3275911*x)))
        + 2*x * (erfPoly (1/(1+0.3275911*x)) * (1/(1+0.3275911*x))))) x := by
  have hden : HasDerivAt (fun x : ℝ => 1 + 0.3275911 * x) 0.3275911 x := by
    simpa using ((hasDerivAt_id x).const_mul (0.3275911 : ℝ)).const_add (1 : ℝ)
  have hT : HasDerivAt (fun x : ℝ => 1 / (1 + 0.3275911 * x))
      ((0 * (1 + 0.3275911*x) - 1 * 0.3275911) / (1 + 0.3275911*x)^2) x :=
    (hasDerivAt_const x 1).div hden hx
  have hPT : HasDerivAt (fun y : ℝ => erfPoly (1 / (1 + 0.3275911 * y)))
      (erfPolyDeriv (1 / (1 + 0.3275911 * x)) *
        ((0 * (1 + 0.3275911*x) - 1 * 0.3275911) / (1 + 0.3275911*x)^2)) x :=
    (hasDerivAt_erfPoly (1 / (1 + 0.3275911 * x))).comp x hT
  have hW := hPT.mul hT
  have hsq : HasDerivAt (fun y : ℝ => -(y*y)) (-(1*x + x*1)) x :=
    ((hasDerivAt_id x).mul (hasDerivAt_id x)).neg
  have hE := hsq.exp
  have hF := hW.mul hE
  have hTotal := hF.const_sub 1
  have hfun : erfPos = (fun y : ℝ =>
      1 - erfPoly (1 / (1 + 0.3275911 * y)) * (1 / (1 + 0.3275911 * y)) * Real.exp (-(y*y))) := by
    funext y
    rfl
  rw [hfun]
  convert hTotal using 1
  field_simp
  ring_nf

/-- The A–S polynomial is non-negative on [0, 1]. -/
theorem erfPoly_nonneg {t : ℝ} (h0 : 0 ≤ t) (h1 : t ≤ 1) : 0 ≤ erfPoly t := by
  unfold erfPoly
  nlinarith [sq_nonneg t, sq_nonneg (t - 1), sq_nonneg (t - 1/2), mul_nonneg h0 h0,
    mul_nonneg (mul_nonneg h0 h0) h0, sq_nonneg (t*t - t)]

/-- The A–S polynomial is at most 5 on [0, 1]. -/
theorem erfPoly_le_five {t : ℝ} (h0 : 0 ≤ t) (h1 : t ≤ 1) : erfPoly t ≤ 5 := by
  unfold erfPoly
  nlinarith [sq_nonneg t, sq_nonneg (t - 1), mul_nonneg h0 h0,
    mul_nonneg (mul_nonneg h0 h0) h0]

theorem polyR_nonneg {u : ℝ} (hu : 1 ≤ u) :
    0 ≤ 0.254829592*u^4 + -0.284496736*u^3 + 1.421413741*u^2 + -1.453152027*u + 1.061405429 := by
  nlinarith [pow_nonneg (by linarith : (0:ℝ) ≤ u - 1) 2,
    pow_nonneg (by linarith : (0:ℝ) ≤ u - 1) 3,
    pow_nonneg (by linarith : (0:ℝ) ≤ u - 1) 4, sub_nonneg.mpr hu]

theorem polyQ_nonneg {u : ℝ} (hu : 1 ≤ u) :
    0 ≤ 0.254829592*u^4 + -0.568993472*u^3 + 4.264241223*u^2 + -5.812608108*u + 5.307027145 := by
  nlinarith [pow_nonneg (by linarith : (0:ℝ) ≤ u - 1) 2,
    pow_nonneg (by linarith : (0:ℝ) ≤ u - 1) 3,
    pow_nonneg (by linarith : (0:ℝ) ≤ u - 1) 4, sub_nonneg.mpr hu]

/-- The derivative of the positive branch of `erf` is non-negative. -/
theorem erfPos_deriv_nonneg {x : ℝ} (hx : 0 ≤ x) :
    0 ≤ Real.exp (-(x*x)) * (0.3275911 * (1/(1+0.3275911*x))^2 *
         (erfPolyDeriv (1/(1+0.3275911*x)) * (1/(1+0.3275911*x)) + erfPoly (1/(1+0.3275911*x)))
        + 2*x * (erfPoly (1/(1+0.3275911*x)) * (1/(1+0.3275911*x)))) := by
  have hu : (1:ℝ) ≤ 1 + 0.3275911 * x := by nlinarith
  have hu0 : (0:ℝ) < 1 + 0.3275911 * x := by linarith
  apply mul_nonneg (Real.exp_nonneg _)
  have key : 0.3275911 * (1/(1+0.3275911*x))^2 *
         (erfPolyDeriv (1/(1+0.3275911*x)) * (1/(1+0.3275911*x)) + erfPoly (1/(1+0.3275911*x)))
        + 2*x * (erfPoly (1/(1+0.3275911*x)) * (1/(1+0.3275911*x)))
      = (0.3275911^2 * (0.254829592*(1+0.3275911*x)^4 + -0.568993472*(1+0.3275911*x)^3
            + 4.264241223*(1+0.3275911*x)^2 + -5.812608108*(1+0.3275911*x) + 5.307027145)
         + 2*(1+0.3275911*x)*((1+0.3275911*x)-1)
            * (0.254829592*(1+0.3275911*x)^4 + -0.284496736*(1+0.3275911*x)^3
               + 1.421413741*(1+0.3275911*x)^2 + -1.453152027*(1+0.3275911*x) + 1.061405429))
        / (0.3275911 * (1+0.3275911*x)^6) := by
    unfold erfPoly erfPolyDeriv
    rw [eq_div_iff (by positivity)]
    field_simp
    ring
  rw [key]
  apply div_nonneg ?_ (by positivity)
  have hQ := polyQ_nonneg hu
  have hR := polyR_nonneg hu
  have h2 : (0:ℝ) ≤ 2*(1+0.3275911*x)*((1+0.3275911*x)-1) := by nlinarith
  nlinarith [mul_nonneg h2 hR]

/-- The positive branch of `erf` is monotone on [0, ∞). -/
theorem erfPos_monotoneOn : MonotoneOn erfPos (Set.Ici 0) := by
  apply monotoneOn_of_deriv_nonneg (convex_Ici 0)
  · intro x hx
    have hx0 : (0:ℝ) ≤ x := hx
    have hne : (1:ℝ) + 0.3275911 * x ≠ 0 := by nlinarith
    exact ((hasDerivAt_erfPos x hne).continuousAt).continuousWithinAt
  · intro x hx
    rw [interior_Ici] at hx
    have hx0 : (0:ℝ) < x := hx
    have hne : (1:ℝ) + 0.3275911 * x ≠ 0 := by nlinarith
    exact ((hasDerivAt_erfPos x hne).differentiableAt).differentiableWithinAt
  · intro x hx
    rw [interior_Ici] at hx
    have hx0 : (0:ℝ) < x := hx
    have hne : (1:ℝ) + 0.3275911 * x ≠ 0 := by nlinarith
    rw [(hasDerivAt_erfPos x hne).deriv]
    exact erfPos_deriv_nonneg hx0.le

theorem erfPos_nonneg {x : ℝ} (hx : 0 ≤ x) : 0 ≤ erfPos x := by
  have h0 : (0:ℝ) ≤ erfPos 0 := by
    unfold erfPos erfPoly
    norm_num [Real.exp_zero]
  calc (0:ℝ) ≤ erfPos 0 := h0
    _ ≤ erfPos x := erfPos_monotoneOn Set.left_mem_Ici hx hx

/-- The modelled `erf` is monotone on all of ℝ. -/
theorem erf_monotone : Monotone erf := by
  intro a b hab
  unfold erf
  by_cases ha : (0:ℝ) ≤ a
  · rw [if_pos ha, if_pos (le_trans ha hab)]
    exact erfPos_monotoneOn ha (le_trans ha hab) hab
  · by_cases hb : (0:ℝ) ≤ b
    · rw [if_neg ha, if_pos hb]
      have h1 : 0 ≤ erfPos b := erfPos_nonneg hb
      have h2 : 0 ≤ erfPos (-a) := erfPos_nonneg (by linarith)
      linarith
    · rw [if_neg ha, if_neg hb]
      have hmem1 : (-b) ∈ Set.Ici (0:ℝ) := by
        simp only [Set.mem_Ici]
        linarith
      have hmem2 : (-a) ∈ Set.Ici (0:ℝ) := by
        simp only [Set.mem_Ici]
        linarith
      have := erfPos_monotoneOn hmem1 hmem2 (by linarith)
      linarith

/-- The percentile computation is monotone (non-decreasing) in the score. -/
theorem calculatePercentile_monotone : Monotone calculatePercentile := by
  intro a b hab
  unfold calculatePercentile
  have hsq : (0:ℝ) < Real.sqrt 2 := Real.sqrt_pos.mpr (by norm_num)
  have hz : (a - 100)/15/Real.sqrt 2 ≤ (b - 100)/15/Real.sqrt 2 := by
    apply (div_le_div_iff_of_pos_right hsq).mpr
    linarith
  have herf := erf_monotone hz
  have hmul : (0.5*(1+erf ((a - 100)/15/Real.sqrt 2))*100*100 + 1/2 : ℝ)
      ≤ 0.5*(1+erf ((b - 100)/15/Real.sqrt 2))*100*100 + 1/2 := by linarith
  have hfl := Int.floor_le_floor hmul
  have hcast : ((⌊(0.5*(1+erf ((a - 100)/15/Real.sqrt 2))*100*100 + 1/2 : ℝ)⌋ : ℤ) : ℝ)
      ≤ ((⌊(0.5*(1+erf ((b - 100)/15/Real.sqrt 2))*100*100 + 1/2 : ℝ)⌋ : ℤ) : ℝ) := by
    exact_mod_cast hfl
  linarith

/-- Once the exponential factor is below 1/50000 the positive branch of
`erf` is within 1/10000 of 1. -/
theorem erfPos_saturated {x : ℝ} (hx : 0 ≤ x) (hexp : Real.exp (-(x*x)) ≤ 1/50000) :
    1 - 1/10000 ≤ erfPos x ∧ erfPos x ≤ 1 := by
  have hu : (1:ℝ) ≤ 1 + 0.3275911 * x := by nlinarith
  have ht0 : (0:ℝ) ≤ 1/(1+0.3275911*x) := by positivity
  have ht1 : 1/(1+0.3275911*x) ≤ 1 := by
    rw [div_le_one (by linarith)]
    linarith
  have hP0 := erfPoly_nonneg ht0 ht1
  have hP5 := erfPoly_le_five ht0 ht1
  have hE0 := Real.exp_nonneg (-(x*x))
  unfold erfPos
  constructor
  · have hWle : erfPoly (1/(1+0.3275911*x)) * (1/(1+0.3275911*x)) * Real.exp (-(x*x))
        ≤ 1/10000 := by
      calc erfPoly (1/(1+0.3275911*x)) * (1/(1+0.3275911*x)) * Real.exp (-(x*x))
          ≤ 5 * 1 * (1/50000) := by
            apply mul_le_mul (mul_le_mul hP5 ht1 ht0 (by norm_num)) hexp hE0 (by norm_num)
        _ = 1/10000 := by norm_num
    linarith
  · have hW0 : 0 ≤ erfPoly (1/(1+0.3275911*x)) * (1/(1+0.3275911*x)) * Real.exp (-(x*x)) :=
      mul_nonneg (mul_nonneg hP0 ht0) hE0
    linarith

theorem exp_neg_fifty_le : Real.exp (-(50:ℝ)) ≤ 1/50000 := by
  have h2 : (2:ℝ) ≤ Real.exp 1 := by
    have := Real.exp_one_gt_d9
    linarith
  have hpow : (2:ℝ)^(50:ℕ) ≤ Real.exp 1 ^ (50:ℕ) := pow_le_pow_left (by norm_num) h2 50
  have hexp : Real.exp (50:ℝ) = Real.exp 1 ^ (50:ℕ) := by
    rw [← Real.exp_nat_mul]
    norm_num
  have h50 : (50000:ℝ) ≤ Real.exp 50 := by
    rw [hexp]
    calc (50000:ℝ) ≤ 2^(50:ℕ) := by norm_num
      _ ≤ _ := hpow
  rw [Real.exp_neg]
  calc (Real.exp 50)⁻¹ ≤ (50000:ℝ)⁻¹ := by
        apply inv_le_inv_of_le (by norm_num) h50
    _ = 1/50000 := by norm_num

/-- In the saturated tail the rounded percentile is exactly 100. -/
theorem pct_eq_100_of (z : ℝ) (hz : 0 ≤ z)
    (hexp : Real.exp (-((z/Real.sqrt 2)*(z/Real.sqrt 2))) ≤ 1/50000) :
    ((⌊(0.5*(1+erf (z/Real.sqrt 2))*100*100 + 1/2 : ℝ)⌋ : ℤ) : ℝ)/100 = 100 := by
  have hx : (0:ℝ) ≤ z/Real.sqrt 2 := div_nonneg hz (Real.sqrt_nonneg 2)
  have hsat := erfPos_saturated hx hexp
  rw [erf, if_pos hx]
  have hfl : ⌊(0.5*(1+erfPos (z/Real.sqrt 2))*100*100 + 1/2 : ℝ)⌋ = 10000 := by
    rw [Int.floor_eq_iff]
    constructor
    · push_cast
      nlinarith [hsat.1]
    · push_cast
      nlinarith [hsat.2]
  rw [hfl]
  norm_num

theorem pct250 : calculatePercentile 250 = 100 := by
  simp only [calculatePercentile]
  have h1 : ((250:ℝ) - 100)/15 = 10 := by norm_num
  rw [h1]
  apply pct_eq_100_of 10 (by norm_num)
  have hxx : ((10:ℝ)/Real.sqrt 2)*(10/Real.sqrt 2) = 50 := by
    rw [div_mul_div_comm, Real.mul_self_sqrt (by norm_num : (0:ℝ) ≤ 2)]
    norm_num
  rw [hxx]
  exact exp_neg_fifty_le

theorem pct400 : calculatePercentile 400 = 100 := by
  simp only [calculatePercentile]
  have h1 : ((400:ℝ) - 100)/15 = 20 := by norm_num
  rw [h1]
  apply pct_eq_100_of 20 (by norm_num)
  have hxx : ((20:ℝ)/Real.sqrt 2)*(20/Real.sqrt 2) = 200 := by
    rw [div_mul_div_comm, Real.mul_self_sqrt (by norm_num : (0:ℝ) ≤ 2)]
    norm_num
  rw [hxx]
  calc Real.exp (-(200:ℝ)) ≤ Real.exp (-(50:ℝ)) := Real.exp_le_exp.mpr (by norm_num)
    _ ≤ 1/50000 := exp_neg_fifty_le

/-- Claim C5 (amended): the percentile computation is
`round2(100 * Φ(z))` with `z = (iqScore - 100)/15` and
`Φ(z) = 0.5 (1 + erf(z/√2))` via the Abramowitz–Stegun approximation with
the documented constants; it yields exactly 50.00 at `iqScore = 100` and is
monotonically non-decreasing in `iqScore` (strict increase fails after the
2-decimal rounding in the saturated tails). -/
theorem c5_percentile_properties :
    calculatePercentile 100 = 50
    ∧ Monotone calculatePercentile
    ∧ ∀ iq : ℝ, calculatePercentile iq
        = ((⌊(100 * (0.5 * (1 + erf (((iq - 100)/15) / Real.sqrt 2)))) * 100 + 1/2⌋ : ℤ) : ℝ) / 100 := by
  refine ⟨?_, calculatePercentile_monotone, ?_⟩
  · have h0 : ((100:ℝ) - 100) / 15 / Real.sqrt 2 = 0 := by norm_num
    simp only [calculatePercentile, h0]
    rw [erf, if_pos le_rfl]
    unfold erfPos erfPoly
    norm_num [Real.exp_zero]
  · intro iq
    simp only [calculatePercentile]
    congr 2
    ring

/-- Counterexample to the strict-monotonicity reading of claim C5: the
rounded percentile saturates at 100.00, so two distinct scores map to the
same percentile and the map is not strictly monotone. -/
theorem c5_counterexample :
    calculatePercentile 250 = 100
    ∧ calculatePercentile 400 = 100
    ∧ (250:ℝ) < 400
    ∧ ¬ StrictMono calculatePercentile := by
  refine ⟨pct250, pct400, by norm_num, ?_⟩
  intro hsm
  have h := hsm (show (250:ℝ) < 400 by norm_num)
  rw [pct250, pct400] at h
  exact lt_irrefl _ h

end IQTest
